import Mathlib

/-!
Verification development for the OpenAI → NVIDIA NIM proxy (`server.js`).

The proxy is a single Express handler.  Everything the claims touch is
pure computation over JSON values and strings, so we shallow-embed it:

* `Json` models the JavaScript values produced by `JSON.parse` (numbers
  keep their source lexeme, since no claim depends on float rounding);
* `jsonParse` models `JSON.parse` over a character list, fuelled by the
  input length;
* the model resolver, request coercions, frame reassembler, frame
  rewriter, error forwarder, validator and non-stream response
  translator are each translated directly from the corresponding lines
  of `server.js` (line numbers cited at each definition).
-/

set_option autoImplicit false

namespace NimProxy

/-- JavaScript values obtained from `JSON.parse`.  Numbers keep the raw
decimal lexeme from the source text: the claims under study never compare
numeric payloads after arithmetic, so double rounding is irrelevant and
the lexeme determines the value. -/
inductive Json where
  | null
  | bool (b : Bool)
  | num (raw : String)
  | str (s : String)
  | arr (elems : List Json)
  | obj (fields : List (String × Json))
  deriving Repr, Inhabited

mutual

def Json.beq : Json → Json → Bool
  | .null, .null => true
  | .bool a, .bool b => a == b
  | .num a, .num b => a == b
  | .str a, .str b => a == b
  | .arr a, .arr b => Json.beqList a b
  | .obj a, .obj b => Json.beqFields a b
  | _, _ => false

def Json.beqList : List Json → List Json → Bool
  | [], [] => true
  | a :: as, b :: bs => Json.beq a b && Json.beqList as bs
  | _, _ => false

def Json.beqFields : List (String × Json) → List (String × Json) → Bool
  | [], [] => true
  | (ka, va) :: as, (kb, vb) :: bs => ka == kb && Json.beq va vb && Json.beqFields as bs
  | _, _ => false

end

mutual

def Json.beq_iff : ∀ a b : Json, Json.beq a b = true ↔ a = b
  | .null, b => by cases b <;> simp [Json.beq]
  | .bool x, b => by cases b <;> simp [Json.beq]
  | .num x, b => by cases b <;> simp [Json.beq]
  | .str x, b => by cases b <;> simp [Json.beq]
  | .arr xs, b => by
      cases b <;> simp [Json.beq]
      exact Json.beqList_iff xs _
  | .obj xs, b => by
      cases b <;> simp [Json.beq]
      exact Json.beqFields_iff xs _

def Json.beqList_iff : ∀ a b : List Json, Json.beqList a b = true ↔ a = b
  | [], b => by cases b <;> simp [Json.beqList]
  | x :: xs, b => by
      cases b with
      | nil => simp [Json.beqList]
      | cons y ys =>
          simp only [Json.beqList, Bool.and_eq_true]
          rw [Json.beq_iff x y, Json.beqList_iff xs ys]
          simp

def Json.beqFields_iff : ∀ a b : List (String × Json),
    Json.beqFields a b = true ↔ a = b
  | [], b => by cases b <;> simp [Json.beqFields]
  | (k, v) :: xs, b => by
      cases b with
      | nil => simp [Json.beqFields]
      | cons y ys =>
          obtain ⟨k2, v2⟩ := y
          simp only [Json.beqFields, Bool.and_eq_true]
          rw [Json.beq_iff v v2, Json.beqFields_iff xs ys]
          constructor
          · rintro ⟨⟨hk, hv⟩, ht⟩
            simp_all
          · rintro h
            simp_all

end

instance : DecidableEq Json := fun a b =>
  decidable_of_iff (Json.beq a b = true) (Json.beq_iff a b)

/-- First-match lookup of a key in a JS object field list (`o.k`).
`JSON.parse` never produces duplicate keys (a later duplicate overwrites
in place), so first-match agrees with JS property lookup. -/
def jlookup (fields : List (String × Json)) (k : String) : Option Json :=
  match fields with
  | [] => none
  | (k2, v) :: rest => if k2 = k then some v else jlookup rest k

/-- JS property assignment `o[k] = v`: replace the value at an existing
key in place, else append the key at the end. -/
def setKey (fields : List (String × Json)) (k : String) (v : Json) :
    List (String × Json) :=
  match fields with
  | [] => [(k, v)]
  | (k2, v2) :: rest =>
      if k2 = k then (k2, v) :: rest else (k2, v2) :: setKey rest k v

/-- JS `delete o[k]` (objects produced by `JSON.parse` hold each key at
most once, so removing every occurrence agrees with JS). -/
def removeKey (fields : List (String × Json)) (k : String) :
    List (String × Json) :=
  match fields with
  | [] => []
  | (k2, v) :: rest =>
      if k2 = k then removeKey rest k else (k2, v) :: removeKey rest k

/-- Value of a decimal digit character. -/
def digitVal (c : Char) : Nat := c.toNat - 48

/-- Natural number denoted by a list of decimal digits. -/
def digitsToNat (ds : List Char) : Nat :=
  ds.foldl (fun n c => n * 10 + digitVal c) 0

/-- Exact rational value of a JSON number lexeme
(`-? digits (. digits)? ((e|E) sign? digits)?`).  JSON numbers are finite
decimals, so this is exact; the JS engine would round to the nearest
double, which no claim under study observes. -/
def ratOfLexeme (raw : String) : ℚ :=
  let cs := raw.data
  let (neg, cs1) :=
    match cs with
    | '-' :: t => (true, t)
    | _ => (false, cs)
  let (ip, cs2) := cs1.span Char.isDigit
  let (fp, cs3) :=
    match cs2 with
    | '.' :: t => t.span Char.isDigit
    | _ => (([] : List Char), cs2)
  let ex : Int :=
    match cs3 with
    | 'e' :: '-' :: t => -(Int.ofNat (digitsToNat (t.takeWhile Char.isDigit)))
    | 'e' :: '+' :: t => Int.ofNat (digitsToNat (t.takeWhile Char.isDigit))
    | 'e' :: t => Int.ofNat (digitsToNat (t.takeWhile Char.isDigit))
    | 'E' :: '-' :: t => -(Int.ofNat (digitsToNat (t.takeWhile Char.isDigit)))
    | 'E' :: '+' :: t => Int.ofNat (digitsToNat (t.takeWhile Char.isDigit))
    | 'E' :: t => Int.ofNat (digitsToNat (t.takeWhile Char.isDigit))
    | _ => 0
  let mant : Int := Int.ofNat (digitsToNat (ip ++ fp))
  let mant : Int := if neg then -mant else mant
  (mant : ℚ) * (10 : ℚ) ^ (ex - Int.ofNat fp.length)

mutual

/-- JS `String(v)` / `ToString` on a `JSON.parse` value.  A number prints
its source lexeme (exact for the integral lexemes the claims use); an
array prints as `join(",")`; an object prints `[object Object]`. -/
def jsStr : Json → String
  | .null => "null"
  | .bool b => if b then "true" else "false"
  | .num raw => raw
  | .str s => s
  | .arr xs => jsArrJoin xs
  | .obj _ => "[object Object]"

/-- `Array.prototype.join(",")`: elements converted by `ToString`, with
`null`/`undefined` elements printing as the empty string. -/
def jsArrJoin : List Json → String
  | [] => ""
  | [x] => match x with | .null => "" | v => jsStr v
  | x :: y :: rest =>
      (match x with | .null => "" | v => jsStr v) ++ "," ++ jsArrJoin (y :: rest)

end

/-- JS truthiness of a `JSON.parse` value (`undefined` is handled by
`truthyO`). -/
def truthy : Json → Bool
  | .null => false
  | .bool b => b
  | .num raw => ratOfLexeme raw ≠ 0
  | .str s => s ≠ ""
  | .arr _ => true
  | .obj _ => true

/-- Truthiness of a possibly-absent (`undefined`) value. -/
def truthyO : Option Json → Bool
  | none => false
  | some j => truthy j

/-- JS whitespace recognised by `ToNumber`/`parseInt` string trimming
(ASCII whitespace plus NBSP; the exotic Unicode space points are not
exercised by any claim). -/
def jsWs (c : Char) : Bool :=
  c = ' ' ∨ c = '\t' ∨ c = '\n' ∨ c = '\r' ∨ c.toNat = 11 ∨ c.toNat = 12 ∨ c.toNat = 160

/-- Trim JS whitespace from both ends. -/
def jsTrim (cs : List Char) : List Char :=
  ((cs.dropWhile jsWs).reverse.dropWhile jsWs).reverse

/-- Result of JS `ToNumber`: NaN, a signed infinity, or a finite value
(modelled exactly as a rational; double rounding is unobserved here). -/
inductive NumV where
  | nan
  | inf (neg : Bool)
  | fin (q : ℚ)
  deriving Repr, DecidableEq

/-- Value of a hexadecimal digit, if any. -/
def hexVal (c : Char) : Option Nat :=
  if c.isDigit then some (digitVal c)
  else if 'a' ≤ c ∧ c ≤ 'f' then some (c.toNat - 87)
  else if 'A' ≤ c ∧ c ≤ 'F' then some (c.toNat - 55)
  else none

/-- Natural number denoted by digits in a given radix, or `none` when a
character is not a digit of that radix. -/
def radixNat (radix : Nat) (ds : List Char) : Option Nat :=
  ds.foldl
    (fun acc c =>
      match acc, hexVal c with
      | some n, some d => if d < radix then some (n * radix + d) else none
      | _, _ => none)
    (some 0)

/-- Exponent suffix of a JS decimal literal (`(e|E) sign? digits`), or
`some 0` when the remainder is empty, or `none` on trailing junk. -/
def decExp (cs : List Char) : Option Int :=
  match cs with
  | [] => some 0
  | 'e' :: '-' :: t =>
      if t ≠ [] ∧ t.all Char.isDigit then some (-(Int.ofNat (digitsToNat t))) else none
  | 'e' :: '+' :: t =>
      if t ≠ [] ∧ t.all Char.isDigit then some (Int.ofNat (digitsToNat t)) else none
  | 'e' :: t =>
      if t ≠ [] ∧ t.all Char.isDigit then some (Int.ofNat (digitsToNat t)) else none
  | 'E' :: '-' :: t =>
      if t ≠ [] ∧ t.all Char.isDigit then some (-(Int.ofNat (digitsToNat t))) else none
  | 'E' :: '+' :: t =>
      if t ≠ [] ∧ t.all Char.isDigit then some (Int.ofNat (digitsToNat t)) else none
  | 'E' :: t =>
      if t ≠ [] ∧ t.all Char.isDigit then some (Int.ofNat (digitsToNat t)) else none
  | _ => none

/-- `StrUnsignedDecimalLiteral` of JS `ToNumber` (without sign):
`digits (. digits?)? exp?` or `. digits exp?`; must consume the whole
input. -/
def strUnsignedDec (cs : List Char) : Option ℚ :=
  let (ip, r1) := cs.span Char.isDigit
  match r1 with
  | '.' :: t =>
      let (fp, r2) := t.span Char.isDigit
      if ip = [] ∧ fp = [] then none
      else
        (decExp r2).map (fun ex =>
          (Int.ofNat (digitsToNat (ip ++ fp)) : ℚ) * (10 : ℚ) ^ (ex - Int.ofNat fp.length))
  | _ =>
      if ip = [] then none
      else (decExp r1).map (fun ex => (Int.ofNat (digitsToNat ip) : ℚ) * (10 : ℚ) ^ ex)

/-- JS `ToNumber` on a string: trim, empty → 0, `Infinity` forms,
`0x`/`0o`/`0b` integer literals, or a signed decimal literal; anything
else is NaN. -/
def strToNumber (s : String) : NumV :=
  let cs := jsTrim s.data
  match cs with
  | [] => .fin 0
  | '0' :: 'x' :: t => match radixNat 16 t with
      | some n => if t = [] then .nan else .fin (n : ℚ)
      | none => .nan
  | '0' :: 'X' :: t => match radixNat 16 t with
      | some n => if t = [] then .nan else .fin (n : ℚ)
      | none => .nan
  | '0' :: 'o' :: t => match radixNat 8 t with
      | some n => if t = [] then .nan else .fin (n : ℚ)
      | none => .nan
  | '0' :: 'O' :: t => match radixNat 8 t with
      | some n => if t = [] then .nan else .fin (n : ℚ)
      | none => .nan
  | '0' :: 'b' :: t => match radixNat 2 t with
      | some n => if t = [] then .nan else .fin (n : ℚ)
      | none => .nan
  | '0' :: 'B' :: t => match radixNat 2 t with
      | some n => if t = [] then .nan else .fin (n : ℚ)
      | none => .nan
  | _ =>
    let (neg, body) :=
      match cs with
      | '-' :: t => (true, t)
      | '+' :: t => (false, t)
      | _ => (false, cs)
    if body = ['I', 'n', 'f', 'i', 'n', 'i', 't', 'y'] then .inf neg
    else
      match strUnsignedDec body with
      | some q => .fin (if neg then -q else q)
      | none => .nan

/-- JS unary `+v` (`ToNumber`) on a possibly-absent `JSON.parse` value.
`undefined → NaN`; an array converts through `ToPrimitive`, i.e. its
`join(",")` string. -/
def jsToNumber : Option Json → NumV
  | none => .nan
  | some .null => .fin 0
  | some (.bool b) => .fin (if b then 1 else 0)
  | some (.num raw) => .fin (ratOfLexeme raw)
  | some (.str s) => strToNumber s
  | some (.arr xs) => strToNumber (jsArrJoin xs)
  | some (.obj _) => .nan

/-- JS `parseInt(v, 10)`: `ToString` the argument, skip leading
whitespace, take an optional sign and then the longest prefix of decimal
digits; no digits means NaN (`none`). -/
def parseIntJs (v : Option Json) : Option Int :=
  let s := match v with | none => "undefined" | some j => jsStr j
  let cs := s.data.dropWhile jsWs
  let (neg, cs1) :=
    match cs with
    | '-' :: t => (true, t)
    | '+' :: t => (false, t)
    | _ => (false, cs)
  let ds := cs1.takeWhile Char.isDigit
  if ds = [] then none
  else some (if neg then -(Int.ofNat (digitsToNat ds)) else Int.ofNat (digitsToNat ds))

/-- JSON whitespace (exactly space, tab, newline, carriage return). -/
def skipWs : List Char → List Char
  | [] => []
  | c :: rest =>
      if c = ' ' ∨ c = '\t' ∨ c = '\n' ∨ c = '\r' then skipWs rest else c :: rest

/-- Body of a JSON string after the opening quote: returns the decoded
characters and the remainder after the closing quote.  Escapes follow
`JSON.parse`; a lone UTF-16 surrogate (which Lean characters cannot
carry) decodes to U+FFFD — no claim exercises that corner. -/
def parseStringBody : Nat → List Char → Option (List Char × List Char)
  | 0, _ => none
  | _, [] => none
  | fuel + 1, c :: rest =>
    if c = '"' then some ([], rest)
    else if c = '\\' then
      match rest with
      | [] => none
      | e :: rest2 =>
        if e = '"' then (parseStringBody fuel rest2).map (fun p => ('"' :: p.1, p.2))
        else if e = '\\' then (parseStringBody fuel rest2).map (fun p => ('\\' :: p.1, p.2))
        else if e = '/' then (parseStringBody fuel rest2).map (fun p => ('/' :: p.1, p.2))
        else if e = 'b' then (parseStringBody fuel rest2).map (fun p => (Char.ofNat 8 :: p.1, p.2))
        else if e = 'f' then (parseStringBody fuel rest2).map (fun p => (Char.ofNat 12 :: p.1, p.2))
        else if e = 'n' then (parseStringBody fuel rest2).map (fun p => ('\n' :: p.1, p.2))
        else if e = 'r' then (parseStringBody fuel rest2).map (fun p => ('\r' :: p.1, p.2))
        else if e = 't' then (parseStringBody fuel rest2).map (fun p => ('\t' :: p.1, p.2))
        else if e = 'u' then
          match rest2 with
          | h1 :: h2 :: h3 :: h4 :: rest3 =>
            match hexVal h1, hexVal h2, hexVal h3, hexVal h4 with
            | some a, some b, some c3, some d =>
              let code := ((a * 16 + b) * 16 + c3) * 16 + d
              if 0xD800 ≤ code ∧ code ≤ 0xDBFF then
                match rest3 with
                | '\\' :: 'u' :: k1 :: k2 :: k3 :: k4 :: rest4 =>
                  (match hexVal k1, hexVal k2, hexVal k3, hexVal k4 with
                   | some a2, some b2, some c4, some d2 =>
                     let code2 := ((a2 * 16 + b2) * 16 + c4) * 16 + d2
                     if 0xDC00 ≤ code2 ∧ code2 ≤ 0xDFFF then
                       (parseStringBody fuel rest4).map (fun p =>
                         (Char.ofNat (0x10000 + (code - 0xD800) * 0x400 + (code2 - 0xDC00)) :: p.1, p.2))
                     else
                       (parseStringBody fuel rest3).map (fun p => (Char.ofNat 0xFFFD :: p.1, p.2))
                   | _, _, _, _ =>
                       (parseStringBody fuel rest3).map (fun p => (Char.ofNat 0xFFFD :: p.1, p.2)))
                | _ => (parseStringBody fuel rest3).map (fun p => (Char.ofNat 0xFFFD :: p.1, p.2))
              else if 0xDC00 ≤ code ∧ code ≤ 0xDFFF then
                (parseStringBody fuel rest3).map (fun p => (Char.ofNat 0xFFFD :: p.1, p.2))
              else
                (parseStringBody fuel rest3).map (fun p => (Char.ofNat code :: p.1, p.2))
            | _, _, _, _ => none
          | _ => none
        else none
    else if c.toNat < 32 then none
    else (parseStringBody fuel rest).map (fun p => (c :: p.1, p.2))

/-- JSON number lexeme: `-? (0 | [1-9] digits) (. digits)? ((e|E) sign?
digits)?`; returns the consumed lexeme and the remainder. -/
def parseNumberLex (cs : List Char) : Option (List Char × List Char) :=
  let (sgn, cs1) :=
    match cs with
    | '-' :: t => ((['-'] : List Char), t)
    | _ => (([] : List Char), cs)
  let intPart : Option (List Char × List Char) :=
    match cs1 with
    | '0' :: rest =>
        (match rest with
         | d :: _ => if d.isDigit then none else some (['0'], rest)
         | [] => some (['0'], []))
    | c :: rest =>
        if c.isDigit then
          let (ds, r) := rest.span Char.isDigit
          some (c :: ds, r)
        else none
    | [] => none
  match intPart with
  | none => none
  | some (ip, r1) =>
    let fracPart : Option (List Char × List Char) :=
      match r1 with
      | '.' :: t =>
          let (ds, r) := t.span Char.isDigit
          if ds = [] then none else some ('.' :: ds, r)
      | _ => some ([], r1)
    match fracPart with
    | none => none
    | some (fp, r2) =>
      let expPart : Option (List Char × List Char) :=
        match r2 with
        | e :: rest =>
            if e = 'e' ∨ e = 'E' then
              let (sg, r3) :=
                match rest with
                | '-' :: t => ((['-'] : List Char), t)
                | '+' :: t => ((['+'] : List Char), t)
                | _ => (([] : List Char), rest)
              let (ds, r4) := r3.span Char.isDigit
              if ds = [] then none else some (e :: (sg ++ ds), r4)
            else some ([], e :: rest)
        | [] => some ([], [])
      match expPart with
      | none => none
      | some (ep, r5) => some (sgn ++ ip ++ fp ++ ep, r5)

mutual

/-- `JSON.parse` value parser, fuelled by the input length (the fuel
strictly exceeds any possible chain of recursive calls, so it never runs
out on the inputs `jsonParse` passes). -/
def parseValue : Nat → List Char → Option (Json × List Char)
  | 0, _ => none
  | fuel + 1, cs =>
    match skipWs cs with
    | 'n' :: 'u' :: 'l' :: 'l' :: rest => some (.null, rest)
    | 't' :: 'r' :: 'u' :: 'e' :: rest => some (.bool true, rest)
    | 'f' :: 'a' :: 'l' :: 's' :: 'e' :: rest => some (.bool false, rest)
    | '"' :: rest => (parseStringBody fuel rest).map (fun p => (.str (String.mk p.1), p.2))
    | '[' :: rest =>
        (match skipWs rest with
         | ']' :: rest2 => some (.arr [], rest2)
         | cs2 => parseElems fuel [] cs2)
    | '\x7b' :: rest =>
        (match skipWs rest with
         | '\x7d' :: rest2 => some (.obj [], rest2)
         | cs2 => parseMembers fuel [] cs2)
    | cs2 => (parseNumberLex cs2).map (fun p => (.num (String.mk p.1), p.2))

/-- Comma-separated array elements (at the start of the first element). -/
def parseElems : Nat → List Json → List Char → Option (Json × List Char)
  | 0, _, _ => none
  | fuel + 1, acc, cs =>
    match parseValue fuel cs with
    | none => none
    | some (v, r) =>
      match skipWs r with
      | ',' :: r2 => parseElems fuel (acc ++ [v]) r2
      | ']' :: r2 => some (.arr (acc ++ [v]), r2)
      | _ => none

/-- Comma-separated object members (at the start of the first key).
A duplicate key overwrites the earlier value in place, as in JS. -/
def parseMembers : Nat → List (String × Json) → List Char →
    Option (Json × List Char)
  | 0, _, _ => none
  | fuel + 1, acc, cs =>
    match skipWs cs with
    | '"' :: r =>
      (match parseStringBody (r.length + 1) r with
       | none => none
       | some (k, r1) =>
         match skipWs r1 with
         | ':' :: r2 =>
           (match parseValue fuel r2 with
            | none => none
            | some (v, r3) =>
              let acc2 := setKey acc (String.mk k) v
              match skipWs r3 with
              | ',' :: r4 => parseMembers fuel acc2 r4
              | '\x7d' :: r4 => some (.obj acc2, r4)
              | _ => none)
         | _ => none)
    | _ => none

end

/-- `JSON.parse` on a whole string: parse one value and require only
whitespace to remain. -/
def jsonParse (s : String) : Option Json :=
  let cs := s.data
  match parseValue (2 * cs.length + 4) cs with
  | some (v, rest) => if skipWs rest = [] then some v else none
  | none => none

/-! ## Model Resolver (`server.js` lines 31–40, 66–75, 143) -/

/-- ASCII lower-casing, as `String.prototype.toLowerCase` acts on the
ASCII model names involved here. -/
def lowerChar (c : Char) : Char :=
  if 'A' ≤ c ∧ c ≤ 'Z' then Char.ofNat (c.toNat + 32) else c

/-- `s.toLowerCase()` over the character list. -/
def lowerL (cs : List Char) : List Char := cs.map lowerChar

/-- Whether `pat` is a prefix of `s` (`String.prototype.startsWith`). -/
def startsWithL : List Char → List Char → Bool
  | _, [] => true
  | [], _ :: _ => false
  | c :: cs, p :: ps => c = p && startsWithL cs ps

/-- Whether `pat` occurs as a contiguous substring of `s`
(`String.prototype.includes`). -/
def containsSub (s pat : List Char) : Bool :=
  if startsWithL s pat then true
  else
    match s with
    | [] => false
    | _ :: rest => containsSub rest pat

/-- `MODEL_MAPPING` object literal (lines 32–40), in source order. -/
def MODEL_MAPPING : List (String × String) :=
  [ ("gpt-3.5-turbo", "nvidia/llama-3.1-nemotron-ultra-253b-v1"),
    ("gpt-4", "qwen/qwen3-coder-480b-a35b-instruct"),
    ("gpt-4-turbo", "moonshotai/kimi-k2-instruct-0905"),
    ("gpt-4o", "moonshotai/kimi-k2-instruct-0905"),
    ("claude-3-opus", "openai/gpt-oss-120b"),
    ("claude-3-sonnet", "openai/gpt-oss-20b"),
    ("gemini-pro", "qwen/qwen3-next-80b-a3b-thinking") ]

/-- Own-property lookup on the `MODEL_MAPPING` object literal. -/
def modelMappingLookup (m : String) : Option String :=
  (MODEL_MAPPING.find? (fun kv => kv.1 = m)).map (·.2)

/-- `pickFallbackModel` (lines 66–75): case-insensitive substring checks
in priority order.  (`String(requestedModel || "")` is the identity on
the strings reaching it, since the caller validated `model` as a truthy
string.) -/
def pickFallbackModel (requestedModel : String) : String :=
  let modelLower := lowerL requestedModel.data
  if containsSub modelLower "405b".data || containsSub modelLower "gpt-4".data ||
      containsSub modelLower "opus".data then
    "meta/llama-3.1-405b-instruct"
  else if containsSub modelLower "70b".data || containsSub modelLower "sonnet".data ||
      containsSub modelLower "gemini".data then
    "meta/llama-3.1-70b-instruct"
  else
    "meta/llama-3.1-8b-instruct"

/-- Property names that `MODEL_MAPPING[model]` finds on
`Object.prototype` when `model` is not an own key: the object literal
inherits these, and every one of them is a truthy non-string value (a
function, or `Object.prototype` itself for `__proto__`), so the
`|| pickFallbackModel(model)` default does not apply. -/
def objectProtoProps : List String :=
  [ "constructor", "hasOwnProperty", "isPrototypeOf", "propertyIsEnumerable",
    "toLocaleString", "toString", "valueOf", "__defineGetter__",
    "__defineSetter__", "__lookupGetter__", "__lookupSetter__", "__proto__" ]

/-- Result of `MODEL_MAPPING[model] || pickFallbackModel(model)`: either
a model-identifier string, or a truthy non-string value inherited from
`Object.prototype` (which `JSON.stringify` then drops from the upstream
request body, since functions are not serialisable). -/
inductive Resolved where
  | id (s : String)
  | inheritedNonString (propName : String)
  deriving Repr, DecidableEq

/-- `let nimModel = MODEL_MAPPING[model] || pickFallbackModel(model)`
(line 143), with JS property-lookup semantics: own keys first, then the
(truthy, non-string) `Object.prototype` properties, and only then the
fallback for a genuinely `undefined` lookup. -/
def resolveNimModel (model : String) : Resolved :=
  match modelMappingLookup model with
  | some v => .id v
  | none =>
      if model ∈ objectProtoProps then .inheritedNonString model
      else .id (pickFallbackModel model)

/-! ## Request Translator numeric coercions (`server.js` lines 135–136) -/

/-- Line 135:
`Number.isFinite(+body.temperature) ? +body.temperature : 0.6`.
The argument is `body.temperature` as parsed JSON (`none` = absent). -/
def temperatureOf (v : Option Json) : ℚ :=
  match jsToNumber v with
  | .fin q => q
  | _ => 6 / 10

/-- Line 136:
`Number.isFinite(+body.max_tokens) ? parseInt(body.max_tokens, 10) : 2048`.
Note the guard coerces with unary `+` but the kept value uses
`parseInt`, which can be NaN (`none`) even when the guard passes. -/
def maxTokensOf (v : Option Json) : Option Int :=
  match jsToNumber v with
  | .fin _ => parseIntJs v
  | _ => some 2048

/-! ## Frame Reassembler (`server.js` lines 193–207)

The data handler decodes each chunk with `chunk.toString("utf8")`
(byte-wise, with U+FFFD replacement for invalid or truncated sequences —
`Buffer.toString` keeps no decoder state across chunks), appends it to
the request-scoped `buffer`, splits on `"\n"`, keeps the final fragment
as the new buffer and treats every other fragment as a candidate line. -/

/-- The U+FFFD replacement character. -/
def replChar : Char := Char.ofNat 0xFFFD

/-- Whether a byte is a UTF-8 continuation byte. -/
def contByte (b : Nat) : Bool := 0x80 ≤ b ∧ b ≤ 0xBF

/-- Admissible first continuation byte after a three-byte lead
(WHATWG: lead `E0` narrows to `A0–BF`, lead `ED` to `80–9F`). -/
def cont3ok (lead c : Nat) : Bool :=
  if lead = 0xE0 then 0xA0 ≤ c ∧ c ≤ 0xBF
  else if lead = 0xED then 0x80 ≤ c ∧ c ≤ 0x9F
  else contByte c

/-- Admissible first continuation byte after a four-byte lead
(WHATWG: lead `F0` narrows to `90–BF`, lead `F4` to `80–8F`). -/
def cont4ok (lead c : Nat) : Bool :=
  if lead = 0xF0 then 0x90 ≤ c ∧ c ≤ 0xBF
  else if lead = 0xF4 then 0x80 ≤ c ∧ c ≤ 0x8F
  else contByte c

/-- WHATWG UTF-8 decode with replacement, as performed by
`Buffer.prototype.toString("utf8")`: each maximal invalid subpart,
including a truncated sequence at the end of the buffer, becomes one
U+FFFD.  Fuelled by the byte count (each step consumes at least one
byte, so length-plus-one fuel never runs out). -/
def utf8d : Nat → List Nat → List Char
  | 0, _ => []
  | _, [] => []
  | fuel + 1, b :: rest =>
    if b ≤ 0x7F then Char.ofNat b :: utf8d fuel rest
    else if 0xC2 ≤ b ∧ b ≤ 0xDF then
      match rest with
      | [] => [replChar]
      | c :: rest2 =>
          if contByte c then
            Char.ofNat ((b - 0xC0) * 0x40 + (c - 0x80)) :: utf8d fuel rest2
          else replChar :: utf8d fuel rest
    else if 0xE0 ≤ b ∧ b ≤ 0xEF then
      match rest with
      | [] => [replChar]
      | c1 :: rest2 =>
          if cont3ok b c1 then
            match rest2 with
            | [] => [replChar]
            | c2 :: rest3 =>
                if contByte c2 then
                  Char.ofNat ((b - 0xE0) * 0x1000 + (c1 - 0x80) * 0x40 + (c2 - 0x80)) ::
                    utf8d fuel rest3
                else replChar :: utf8d fuel rest2
          else replChar :: utf8d fuel rest
    else if 0xF0 ≤ b ∧ b ≤ 0xF4 then
      match rest with
      | [] => [replChar]
      | c1 :: rest2 =>
          if cont4ok b c1 then
            match rest2 with
            | [] => [replChar]
            | c2 :: rest3 =>
                if contByte c2 then
                  match rest3 with
                  | [] => [replChar]
                  | c3 :: rest4 =>
                      if contByte c3 then
                        Char.ofNat ((b - 0xF0) * 0x40000 + (c1 - 0x80) * 0x1000 +
                            (c2 - 0x80) * 0x40 + (c3 - 0x80)) :: utf8d fuel rest4
                      else replChar :: utf8d fuel rest3
                else replChar :: utf8d fuel rest2
          else replChar :: utf8d fuel rest
    else replChar :: utf8d fuel rest

/-- `chunk.toString("utf8")` (line 197). -/
def bufToStr (bytes : List Nat) : List Char :=
  utf8d (bytes.length + 1) bytes

/-- `s.split("\n")` over characters: always returns at least one part. -/
def splitNl : List Char → List (List Char)
  | [] => [[]]
  | c :: rest =>
      if c = '\n' then [] :: splitNl rest
      else
        match splitNl rest with
        | h :: t => (c :: h) :: t
        | [] => [[c]]

/-- Split a non-empty list of parts into its leading parts and its last
part (`lines` vs `lines.pop() || ""` of lines 198–199; on the impossible
empty input it returns an empty buffer). -/
def splitInit : List (List Char) → List (List Char) × List Char
  | [] => ([], [])
  | [x] => ([], x)
  | x :: y :: rest =>
      let (a, b) := splitInit (y :: rest)
      (x :: a, b)

/-- One `data` event (lines 196–199): decode the chunk, append to the
buffer, split on newlines; candidate lines out, unterminated tail kept. -/
def feedChunk (buffer : List Char) (chunk : List Nat) :
    List (List Char) × List Char :=
  splitInit (splitNl (buffer ++ bufToStr chunk))

/-- Candidate lines produced over a whole chunk sequence.  The final
buffer contents are discarded, as the source's `end` handler closes the
response without flushing the buffer (line 250). -/
def reassemble (buffer : List Char) : List (List Nat) → List (List Char)
  | [] => []
  | chunk :: rest =>
      let (lines, buf2) := feedChunk buffer chunk
      lines ++ reassemble buf2 rest

/-- A logical frame recovered from one candidate line. -/
inductive LogicalFrame where
  | done
  | data (payload : Json)
  | raw (line : String)
  deriving Repr, DecidableEq

/-- Per-line classification (lines 201–211 and the `catch` at 244):
drop lines not starting with `data: `; a line containing `[DONE]`
anywhere is the termination frame; otherwise parse the remainder after
the six-character prefix as JSON, passing the raw line through when the
parse fails. -/
def classifyLine (line : String) : Option LogicalFrame :=
  if ¬ startsWithL line.data "data: ".data then none
  else if containsSub line.data "[DONE]".data then some .done
  else
    match jsonParse (String.mk (line.data.drop 6)) with
    | some j => some (.data j)
    | none => some (.raw line)

/-- Logical frames recovered from a chunk sequence. -/
def framesOfChunks (chunks : List (List Nat)) : List LogicalFrame :=
  (reassemble [] chunks).filterMap (fun l => classifyLine (String.mk l))

/-! ## Frame Rewriter (`server.js` lines 213–243)

`SHOW_REASONING` is the process-wide toggle of line 25 (pinned to
`false` in the shipped source); the rewriter is parameterised on it, and
on the request-scoped `reasoningStarted` flag of line 194. -/

/-- `ToString` of a possibly-absent value, for the `+` concatenations of
lines 222–229 (the guards ensure the value is present and truthy at
every use). -/
def jsStrO : Option Json → String
  | none => "undefined"
  | some j => jsStr j

/-- Lines 215–240 acting on the `delta` object’s fields: the reasoning
merge (under the toggle), then unconditional `delete
delta.reasoning_content`, then the `delta.content` empty-string
default. -/
def rewriteDelta (showReasoning started : Bool) (delta : List (String × Json)) :
    List (String × Json) × Bool :=
  let reasoning := jlookup delta "reasoning_content"
  let content := jlookup delta "content"
  let cs : String × Bool :=
    if showReasoning then
      let c1s1 : String × Bool :=
        if truthyO reasoning ∧ ¬ started then ("<think>\n" ++ jsStrO reasoning, true)
        else if truthyO reasoning then (jsStrO reasoning, started)
        else ("", started)
      if truthyO content ∧ c1s1.2 = true then
        (c1s1.1 ++ "</think>\n\n" ++ jsStrO content, false)
      else if truthyO content then (c1s1.1 ++ jsStrO content, c1s1.2)
      else c1s1
    else ("", started)
  let d1 := if cs.1 ≠ "" then setKey delta "content" (.str cs.1) else delta
  let d2 := removeKey d1 "reasoning_content"
  let d3 := if ¬ truthyO (jlookup d2 "content") then setKey d2 "content" (.str "") else d2
  (d3, cs.2)

/-- `v?.[0]` for the `data?.choices?.[0]` access of line 214: array
element, character of a string, or property `"0"` of an object;
`undefined` otherwise. -/
def getIndex0 : Json → Option Json
  | .arr (x :: _) => some x
  | .obj fields => jlookup fields "0"
  | .str s =>
      (match s.data with
       | c :: _ => some (.str (String.mk [c]))
       | [] => none)
  | _ => none

/-- Lines 214–241 on a parsed event: when `data?.choices?.[0]?.delta` is
a truthy value the block runs; its mutations are observable in the
emitted JSON only when that delta is an object (assignments to a
primitive are silent no-ops and named properties added to an array are
dropped by `JSON.stringify`), in which case the rewritten delta replaces
the original in place. -/
def rewriteData (showReasoning started : Bool) (j : Json) : Json × Bool :=
  match j with
  | .obj dk =>
    (match jlookup dk "choices" with
     | some cv =>
       (match getIndex0 cv with
        | some (.obj ck) =>
          (match jlookup ck "delta" with
           | some (.obj deltaFields) =>
               let out := rewriteDelta showReasoning started deltaFields
               let st := out.2
               let c2 : Json := .obj (setKey ck "delta" (.obj out.1))
               let cv2 : Json :=
                 match cv with
                 | .arr (_ :: rest) => .arr (c2 :: rest)
                 | .obj cf => .obj (setKey cf "0" c2)
                 | other => other
               (.obj (setKey dk "choices" cv2), st)
           | _ => (j, started))
        | _ => (j, started))
     | none => (j, started))
  | _ => (j, started)

/-- One write to the outbound response. -/
inductive OutEvent where
  | done
  | frame (payload : Json)
  | rawLine (line : String)
  deriving Repr, DecidableEq

/-- Lines 201–247 for one candidate line: classification followed by the
rewrite for data frames (`res.write` calls abstracted as `OutEvent`s). -/
def processLine (showReasoning st : Bool) (line : String) :
    List OutEvent × Bool :=
  match classifyLine line with
  | none => ([], st)
  | some .done => ([.done], st)
  | some (.data d) =>
      let (d2, st2) := rewriteData showReasoning st d
      ([.frame d2], st2)
  | some (.raw l) => ([.rawLine l], st)

/-- Fold `processLine` over candidate lines, threading the
`reasoningStarted` flag. -/
def processLines (showReasoning : Bool) : Bool → List String → List OutEvent × Bool
  | st, [] => ([], st)
  | st, l :: rest =>
      let (evs, st2) := processLine showReasoning st l
      let (evs2, st3) := processLines showReasoning st2 rest
      (evs ++ evs2, st3)

/-- The whole streaming forward path on a chunk sequence. -/
def processStream (showReasoning : Bool) (chunks : List (List Nat)) :
    List OutEvent :=
  (processLines showReasoning false
    ((reassemble [] chunks).map (fun l => String.mk l))).1

/-! ## Upstream error forwarding (`server.js` lines 172–185) -/

/-- `typeof data === "object"` on a `JSON.parse` value: true for
objects, arrays and `null`. -/
def typeofObject : Json → Bool
  | .obj _ => true
  | .arr _ => true
  | .null => true
  | _ => false

/-- The error envelope `\x7b error: \x7b message, type, code \x7d \x7d`. -/
def errorEnvelope (message errType : String) (code : Nat) : Json :=
  .obj [("error", .obj
    [("message", .str message), ("type", .str errType), ("code", .num (toString code))])]

/-- Lines 172–185: forward an upstream status ≥ 400.  A `typeof object`
body is forwarded verbatim; otherwise the body is stringified into the
standard envelope, with the placeholder text substituted when the body
is falsy (`String(data || ...)`). -/
def forwardUpstreamError (status : Nat) (data : Json) : Nat × Json :=
  if typeofObject data then (status, data)
  else
    (status,
      errorEnvelope
        (if truthy data then jsStr data else "Upstream error " ++ toString status)
        "upstream_error" status)

/-! ## Validation and request build (`server.js` lines 107–152) -/

/-- `o.k` on an arbitrary value (property lookup; non-objects have none
of the properties used here). -/
def jfield (j : Json) (k : String) : Option Json :=
  match j with
  | .obj fields => jlookup fields k
  | _ => none

/-- `toBool` (lines 77–79): `v === true || v === "true" || v === 1 ||
v === "1"`. -/
def toBool (v : Option Json) : Bool :=
  match v with
  | some (.bool true) => true
  | some (.str s) => s = "true" ∨ s = "1"
  | some (.num raw) => ratOfLexeme raw = 1
  | _ => false

/-- The upstream request body built at lines 146–152 (`extra_body` is
omitted because `ENABLE_THINKING_MODE` is pinned `false` at line 26). -/
structure NimRequest where
  model : Resolved
  messages : Json
  temperature : ℚ
  max_tokens : Option Int
  stream : Bool
  deriving Repr, DecidableEq

/-- Outcome of the handler prefix: an early JSON response with no
upstream call, or exactly one upstream call carrying the built request. -/
inductive HandlerStep where
  | reject (status : Nat) (body : Json)
  | callUpstream (req : NimRequest)
  deriving Repr, DecidableEq

/-- Lines 107–152 up to the upstream call: the API-key guard, `req.body
|| \x7b\x7d`, the `model` and `messages` validation, the numeric
coercions, the stream flag, and model resolution — all before any
network activity. -/
def handleChatPre (apiKeyPresent forceNoStream : Bool) (body : Option Json) :
    HandlerStep :=
  if ¬ apiKeyPresent then
    .reject 500 (errorEnvelope
      "Server misconfigured: NIM_API_KEY is missing (set it in Render environment variables)."
      "server_error" 500)
  else
    let b : Json :=
      match body with
      | some j => if truthy j then j else .obj []
      | none => .obj []
    match jfield b "model" with
    | some (.str s) =>
        if s = "" then
          .reject 400 (errorEnvelope "Missing or invalid \x27model\x27 in request body"
            "invalid_request_error" 400)
        else
          (match jfield b "messages" with
           | some (.arr ms) =>
               .callUpstream
                 { model := resolveNimModel s
                   messages := .arr ms
                   temperature := temperatureOf (jfield b "temperature")
                   max_tokens := maxTokensOf (jfield b "max_tokens")
                   stream := if forceNoStream then false else toBool (jfield b "stream") }
           | _ =>
               .reject 400 (errorEnvelope
                 "Missing or invalid \x27messages\x27 array in request body"
                 "invalid_request_error" 400))
    | _ =>
        .reject 400 (errorEnvelope "Missing or invalid \x27model\x27 in request body"
          "invalid_request_error" 400)

/-! ## Response Translator, non-streaming (`server.js` lines 259–288) -/

/-- One translated choice entry (values kept as JSON, since the source
passes whatever shapes upstream sent through `||` defaults). -/
structure ChoiceOut where
  index : Json
  role : Json
  content : Json
  finish_reason : Json
  deriving Repr, DecidableEq

/-- The OpenAI-style response envelope of lines 260–286. -/
structure OpenAIResponse where
  id : String
  object : String
  created : Nat
  model : String
  choices : List ChoiceOut
  usage : Json
  deriving Repr, DecidableEq

/-- Lines 265–280 for one upstream choice at position `idx`.  `none`
models the `TypeError` a `null` choice raises at `choice.index` (caught
by the top-level handler, which then responds 500). -/
def translateChoice (showReasoning : Bool) (idx : Nat) (choice : Json) :
    Option ChoiceOut :=
  match choice with
  | .null => none
  | _ =>
    let msg := jfield choice "message"
    let content : Option Json :=
      match msg with
      | some m => jfield m "content"
      | none => none
    let fc0 : Json :=
      match content with
      | some c => if truthy c then c else .str ""
      | none => .str ""
    let rc : Option Json :=
      match msg with
      | some m => jfield m "reasoning_content"
      | none => none
    let fullContent : Json :=
      if showReasoning ∧ truthyO rc = true then
        .str ("<think>\n" ++ jsStrO rc ++ "\n</think>\n\n" ++ jsStr fc0)
      else fc0
    let indexVal : Json :=
      match jfield choice "index" with
      | some (.num raw) => .num raw
      | _ => .num (toString idx)
    let roleVal : Json :=
      match msg with
      | some m =>
          (match jfield m "role" with
           | some r => if truthy r then r else .str "assistant"
           | none => .str "assistant")
      | none => .str "assistant"
    let finishVal : Json :=
      match jfield choice "finish_reason" with
      | some f => if truthy f then f else .str "stop"
      | none => .str "stop"
    some { index := indexVal, role := roleVal, content := fullContent,
           finish_reason := finishVal }

/-- Translate the choices in order, tracking positions. -/
def translateChoices (showReasoning : Bool) (idx : Nat) :
    List Json → Option (List ChoiceOut)
  | [] => some []
  | c :: rest =>
      match translateChoice showReasoning idx c with
      | none => none
      | some out =>
          (translateChoices showReasoning (idx + 1) rest).map (fun t => out :: t)

/-- Lines 260–286: build the outbound envelope from the complete
upstream body.  `none` models the paths that raise (and are mapped to a
500 by the catch-all): `upstream.data.choices` on a `null` body,
`.map` on a truthy non-array `choices`, and a `null` choice entry.
`now` stands for `Date.now()` in milliseconds. -/
def responseTranslator (showReasoning : Bool) (model : String)
    (upstreamData : Json) (now : Nat) : Option OpenAIResponse :=
  match upstreamData with
  | .null => none
  | _ =>
    let choicesList : Option (List Json) :=
      match jfield upstreamData "choices" with
      | some v => if truthy v then (match v with | .arr xs => some xs | _ => none) else some []
      | none => some []
    match choicesList with
    | none => none
    | some xs =>
      match translateChoices showReasoning 0 xs with
      | none => none
      | some outs =>
          let usage : Json :=
            match jfield upstreamData "usage" with
            | some u =>
                if truthy u then u
                else .obj [("prompt_tokens", .num "0"), ("completion_tokens", .num "0"),
                           ("total_tokens", .num "0")]
            | none => .obj [("prompt_tokens", .num "0"), ("completion_tokens", .num "0"),
                            ("total_tokens", .num "0")]
          some { id := "chatcmpl-" ++ toString now
                 object := "chat.completion"
                 created := now / 1000
                 model := model
                 choices := outs
                 usage := usage }

/-! ## Concrete inputs and observation helpers used by the claims -/

/-- The `delta.content` string carried by an outbound data frame (empty
for other events or shapes). -/
def deltaContentOf (ev : OutEvent) : String :=
  match ev with
  | .frame (.obj dk) =>
      (match jlookup dk "choices" with
       | some cv =>
         (match getIndex0 cv with
          | some (.obj ck) =>
            (match jlookup ck "delta" with
             | some (.obj df) =>
               (match jlookup df "content" with
                | some (.str s) => s
                | _ => "")
             | _ => "")
          | _ => "")
       | none => "")
  | _ => ""

/-- Whether property `k` of the request body holds a string value
(`typeof === "string"`). -/
def hasStrField (b : Json) (k : String) : Bool :=
  match jfield b k with
  | some (.str _) => true
  | _ => false

/-- Whether property `k` of the request body holds an array
(`Array.isArray`). -/
def hasArrField (b : Json) (k : String) : Bool :=
  match jfield b k with
  | some (.arr _) => true
  | _ => false

/-- UTF-8 bytes of the event-stream text `data: é\n` (`é` = `C3 A9`). -/
def c2Bytes : List Nat :=
  [0x64, 0x61, 0x74, 0x61, 0x3A, 0x20, 0xC3, 0xA9, 0x0A]

/-- The three reasoning-merge input lines of claim C4: deltas carrying
`reasoning_content: "A"`, `reasoning_content: "B"`, `content: "C"`. -/
def c4Lines : List String :=
  [ "data: \x7b\"choices\":[\x7b\"delta\":\x7b\"reasoning_content\":\"A\"\x7d\x7d]\x7d",
    "data: \x7b\"choices\":[\x7b\"delta\":\x7b\"reasoning_content\":\"B\"\x7d\x7d]\x7d",
    "data: \x7b\"choices\":[\x7b\"delta\":\x7b\"content\":\"C\"\x7d\x7d]\x7d" ]

/-- A first choice whose delta carries both content and reasoning. -/
def c10Choice0 : Json :=
  Json.obj [("delta", Json.obj [("content", Json.str "a"),
    ("reasoning_content", Json.str "r0")])]

/-- A second choice whose delta carries a `reasoning_content` field. -/
def c10Choice1 : Json :=
  Json.obj [("delta", Json.obj [("reasoning_content", Json.str "keep me")])]

/-- A two-choice data frame body. -/
def c10Fields : List (String × Json) :=
  [("choices", Json.arr [c10Choice0, c10Choice1])]

/-! ## Shared lemmas on object field operations -/

theorem jlookup_setKey_self (d : List (String × Json)) (k : String) (v : Json) :
    jlookup (setKey d k v) k = some v := by
  induction d with
  | nil => simp [setKey, jlookup]
  | cons kv rest ih =>
      obtain ⟨k2, v2⟩ := kv
      by_cases h : k2 = k <;> simp [setKey, jlookup, h, ih]

theorem jlookup_setKey_ne (d : List (String × Json)) (k k2 : String) (v : Json)
    (h : k ≠ k2) : jlookup (setKey d k v) k2 = jlookup d k2 := by
  induction d with
  | nil => simp [setKey, jlookup, h]
  | cons kv rest ih =>
      obtain ⟨k3, v3⟩ := kv
      by_cases h3 : k3 = k
      · subst h3
        simp [setKey, jlookup, h]
      · simp [setKey, jlookup, h3, ih]

theorem jlookup_removeKey_self (d : List (String × Json)) (k : String) :
    jlookup (removeKey d k) k = none := by
  induction d with
  | nil => simp [removeKey, jlookup]
  | cons kv rest ih =>
      obtain ⟨k2, v2⟩ := kv
      by_cases h : k2 = k <;> simp [removeKey, jlookup, h, ih]

theorem jlookup_removeKey_ne (d : List (String × Json)) (k k2 : String)
    (h : k ≠ k2) : jlookup (removeKey d k) k2 = jlookup d k2 := by
  induction d with
  | nil => simp [removeKey, jlookup]
  | cons kv rest ih =>
      obtain ⟨k3, v3⟩ := kv
      by_cases h3 : k3 = k
      · subst h3
        have h4 : ¬ k3 = k2 := h
        simp [removeKey, jlookup, h4, ih]
      · simp [removeKey, jlookup, h3, ih]

theorem setKey_eq_self_of_jlookup (d : List (String × Json)) (k : String) (v : Json)
    (h : jlookup d k = some v) : setKey d k v = d := by
  induction d with
  | nil => simp [jlookup] at h
  | cons kv rest ih =>
      obtain ⟨k2, v2⟩ := kv
      by_cases h2 : k2 = k
      · subst h2
        simp [jlookup] at h
        simp [setKey, h]
      · simp [jlookup, h2] at h
        simp [setKey, h2, ih h]

/-! ## Claim C1 — model resolution -/

/-- Claim C1 (code bug): the claim says resolution of a model string not
in the exact-match table always yields one of the three fallback tiers,
but `MODEL_MAPPING[model]` is a JS property lookup on an object literal,
so a caller model such as `"constructor"` finds the truthy inherited
`Object.prototype.constructor` function instead of `undefined`; the
short-circuit `||` never reaches `pickFallbackModel`, and the resolved
value is not an identifier string at all.  This theorem evaluates the
resolver at the failing input (and, for contrast, at an exact-match key,
and shows which fallback the claim would have demanded). -/
theorem C1_model_resolution_inherited_lookup :
    resolveNimModel "gpt-4" = Resolved.id "qwen/qwen3-coder-480b-a35b-instruct" ∧
    resolveNimModel "constructor" = Resolved.inheritedNonString "constructor" ∧
    (∀ s : String, resolveNimModel "constructor" ≠ Resolved.id s) ∧
    pickFallbackModel "constructor" = "meta/llama-3.1-8b-instruct" := by
  refine ⟨by decide, by decide, ?_, by decide⟩
  intro s h
  have h2 : resolveNimModel "constructor" = Resolved.inheritedNonString "constructor" := by
    decide
  rw [h2] at h
  exact Resolved.noConfusion h

/-! ## Claim C6 — numeric coercions -/

/-- Claim C6 (code bug): the claim says the upstream `max_tokens` equals
the caller value coerced to an integer when finite and 2048 otherwise,
with NaN never propagated.  The guard on line 136 checks
`Number.isFinite(+v)` but the kept value is `parseInt(v, 10)`: for the
caller value `""` the guard passes (`+"" === 0`) while `parseInt("", 10)`
is NaN, so NaN is propagated upstream instead of the 2048 default.  The
temperature coercion (line 135), whose guard and value use the same
conversion, behaves as claimed. -/
theorem C6_max_tokens_nan_propagated :
    maxTokensOf (some (Json.str "")) = none ∧
    jsToNumber (some (Json.str "")) = NumV.fin 0 ∧
    parseIntJs (some (Json.str "")) = none ∧
    maxTokensOf none = some 2048 ∧
    temperatureOf none = 6 / 10 ∧
    temperatureOf (some (Json.str "")) = 0 := by
  refine ⟨by decide, by decide, by decide, by decide, by rfl, by rfl⟩

/-! ## Claim C8 — upstream error forwarding -/

/-- Claim C8 counterexample: an upstream 429 whose body is JSON `null`
is not "structured data (a JSON object)", so the claim requires the
wrapped error envelope; the code tests `typeof data === "object"`, which
is true for `null`, and forwards the bare `null` verbatim instead. -/
theorem C8_null_body_counterexample :
    forwardUpstreamError 429 Json.null = (429, Json.null) ∧
    typeofObject Json.null = true ∧
    (∀ fields : List (String × Json), Json.null ≠ Json.obj fields) ∧
    (∀ m : String, Json.null ≠ errorEnvelope m "upstream_error" 429) := by
  refine ⟨rfl, rfl, fun fields h => Json.noConfusion h, fun m h => ?_⟩
  simp [errorEnvelope] at h

/-- Claim C8 (amended): for every upstream status ≥ 400, a body of JS
`typeof "object"` (a JSON object, array, or `null`) is forwarded
verbatim with the same status — in particular a 429 with a structured
JSON error body yields 429 with the identical body — and any other body
is wrapped as
`\x7b error: \x7b message, type: "upstream_error", code \x7d \x7d`,
where `message` is the body text when truthy and the placeholder
`Upstream error <status>` otherwise. -/
theorem C8_error_forwarding (status : Nat) (data : Json) :
    (typeofObject data = true → forwardUpstreamError status data = (status, data)) ∧
    (typeofObject data = false →
        forwardUpstreamError status data =
          (status, errorEnvelope
            (if truthy data = true then jsStr data else "Upstream error " ++ toString status)
            "upstream_error" status)) := by
  constructor <;> intro h <;> simp [forwardUpstreamError, h]

/-- Witness for C8: a concrete 429 with a structured JSON body is
forwarded with status 429 and the identical body. -/
theorem C8_error_forwarding_witness :
    forwardUpstreamError 429
        (Json.obj [("error", Json.obj [("message", Json.str "rate limit"),
          ("code", Json.num "429")])]) =
      (429, Json.obj [("error", Json.obj [("message", Json.str "rate limit"),
        ("code", Json.num "429")])]) :=
  (C8_error_forwarding 429 _).1 (by decide)

/-! ## Claim C2 — chunk-boundary invariance of frame reassembly -/

/-- Claim C2 (code bug): the claim says reassembly is invariant under
splitting the byte stream at arbitrary byte offsets.  The handler
decodes each chunk separately with `chunk.toString("utf8")`, which keeps
no decoder state, so a multi-byte UTF-8 character split across a chunk
boundary decodes to two U+FFFD replacement characters instead of the
original character: feeding `data: é\n` whole yields the frame for
`data: é`, while splitting between the two bytes of `é` yields a
different frame.  (Both parses fail as JSON, so both surface as raw
pass-through frames, making the difference directly visible.) -/
theorem C2_chunk_boundary_not_invariant :
    framesOfChunks [c2Bytes] = [LogicalFrame.raw "data: é"] ∧
    framesOfChunks [c2Bytes.take 7, c2Bytes.drop 7] =
      [LogicalFrame.raw "data: \uFFFD\uFFFD"] ∧
    c2Bytes.take 7 ++ c2Bytes.drop 7 = c2Bytes ∧
    framesOfChunks [c2Bytes] ≠ framesOfChunks [c2Bytes.take 7, c2Bytes.drop 7] := by
  refine ⟨by decide, by decide, by decide, by decide⟩

/-! ## Claim C3 — line classification -/

/-- Claim C3 counterexample: the line `data: \x7b"a":"[DONE] no"\x7d`
has a payload that is valid JSON and is not the termination token, so
the claim requires a DataFrame carrying the parsed structure; the code
tests `line.includes("[DONE]")` before parsing and emits the termination
frame instead. -/
theorem C3_includes_counterexample :
    classifyLine "data: \x7b\"a\":\"[DONE] no\"\x7d" = some LogicalFrame.done ∧
    String.mk (("data: \x7b\"a\":\"[DONE] no\"\x7d").data.drop 6) ≠ "[DONE]" ∧
    (jsonParse (String.mk (("data: \x7b\"a\":\"[DONE] no\"\x7d").data.drop 6))).isSome
      = true ∧
    (∀ j, classifyLine "data: \x7b\"a\":\"[DONE] no\"\x7d" ≠
      some (LogicalFrame.data j)) := by
  refine ⟨by decide, by decide, by decide, ?_⟩
  intro j h
  have h2 : classifyLine "data: \x7b\"a\":\"[DONE] no\"\x7d" = some LogicalFrame.done := by
    decide
  rw [h2] at h
  simp at h

/-- Claim C3 (amended): a candidate line is discarded unless it begins
with `data: `; a line containing the token `[DONE]` anywhere (substring
containment, not payload equality) yields exactly one termination frame;
otherwise a payload that parses as JSON yields a DataFrame carrying the
parsed structure, and a payload that fails to parse passes the raw line
through unmodified. -/
theorem C3_line_classification (line : String) :
    (startsWithL line.data "data: ".data = false → classifyLine line = none) ∧
    (startsWithL line.data "data: ".data = true →
      containsSub line.data "[DONE]".data = true →
        classifyLine line = some LogicalFrame.done ∧
        ∀ showReasoning st, processLine showReasoning st line = ([OutEvent.done], st)) ∧
    (startsWithL line.data "data: ".data = true →
      containsSub line.data "[DONE]".data = false →
      ∀ j, jsonParse (String.mk (line.data.drop 6)) = some j →
        classifyLine line = some (LogicalFrame.data j)) ∧
    (startsWithL line.data "data: ".data = true →
      containsSub line.data "[DONE]".data = false →
      jsonParse (String.mk (line.data.drop 6)) = none →
        classifyLine line = some (LogicalFrame.raw line)) := by
  refine ⟨?_, ?_, ?_, ?_⟩
  · intro h
    simp [classifyLine, h]
  · intro h hc
    refine ⟨by simp [classifyLine, h, hc], ?_⟩
    intro showReasoning st
    simp [processLine, classifyLine, h, hc]
  · intro h hc j hj
    simp [classifyLine, h, hc, hj]
  · intro h hc hj
    simp [classifyLine, h, hc, hj]

/-- Witness for C3: the exact termination line classifies as the
termination frame and emits exactly one outbound termination event. -/
theorem C3_line_classification_witness :
    classifyLine "data: [DONE]" = some LogicalFrame.done ∧
    processLine false false "data: [DONE]" = ([OutEvent.done], false) :=
  ⟨((C3_line_classification "data: [DONE]").2.1 (by decide) (by decide)).1,
   ((C3_line_classification "data: [DONE]").2.1 (by decide) (by decide)).2 false false⟩

/-! ## Claim C4 — reasoning merge trace -/

/-- Claim C4: with reasoning display enabled and the merge state
initially closed, the delta sequence `reasoning "A"`, `reasoning "B"`,
`content "C"` produces three outbound frames whose concatenated
`delta.content` is exactly `<think>\nAB</think>\n\nC`. -/
theorem C4_reasoning_merge_trace :
    (processLines true false c4Lines).1.length = 3 ∧
    ((processLines true false c4Lines).1.map deltaContentOf) =
      ["<think>\nA", "B", "</think>\n\nC"] ∧
    String.join ((processLines true false c4Lines).1.map deltaContentOf) =
      "<think>\nAB</think>\n\nC" := by
  refine ⟨by decide, by decide, by decide⟩

/-! ## Claim C5 — rewrite with reasoning display disabled -/

/-- Claim C5 counterexample: with reasoning display disabled, a delta
whose `content` field is present but `null` (present, hence not
"absent") is rewritten to the explicit empty string, which differs from
the original `delta.content` value the claim promises. -/
theorem C5_null_content_counterexample :
    jlookup [("content", Json.null)] "content" = some Json.null ∧
    jlookup (rewriteDelta false false [("content", Json.null)]).1 "content" =
      some (Json.str "") ∧
    Json.str "" ≠ Json.null := by
  refine ⟨by decide, by decide, by decide⟩

/-- After the unconditional delete and the content default, the
`reasoning_content` key is absent whatever the earlier merge produced. -/
theorem jlookup_rewritten_rc (d1 : List (String × Json)) :
    jlookup
      (if ¬ truthyO (jlookup (removeKey d1 "reasoning_content") "content") = true then
        setKey (removeKey d1 "reasoning_content") "content" (Json.str "")
      else removeKey d1 "reasoning_content") "reasoning_content" = none := by
  split
  · rw [jlookup_setKey_ne _ _ _ _
      (show ("content" : String) ≠ "reasoning_content" by decide)]
    exact jlookup_removeKey_self _ _
  · exact jlookup_removeKey_self _ _

/-- Claim C5 (amended): with reasoning display disabled, the rewritten
`delta.content` equals the original value when that value is truthy and
the explicit empty string otherwise (absent, `null`, empty string, `0`,
or `false`); `reasoning_content` is absent from the outbound delta
regardless of the toggle state; and the merge flag is untouched when the
toggle is off. -/
theorem C5_rewrite_disabled (delta : List (String × Json))
    (started showReasoning : Bool) :
    jlookup (rewriteDelta false started delta).1 "content" =
      some (match jlookup delta "content" with
            | some c => if truthy c = true then c else Json.str ""
            | none => Json.str "") ∧
    jlookup (rewriteDelta showReasoning started delta).1 "reasoning_content" = none ∧
    (rewriteDelta false started delta).2 = started := by
  have hrc : ("reasoning_content" : String) ≠ "content" := by decide
  have hcr : ("content" : String) ≠ "reasoning_content" := by decide
  refine ⟨?_, ?_, rfl⟩
  · show jlookup
      (if ¬ truthyO (jlookup (removeKey delta "reasoning_content") "content") = true then
        setKey (removeKey delta "reasoning_content") "content" (Json.str "")
      else removeKey delta "reasoning_content") "content" = _
    rw [jlookup_removeKey_ne delta _ _ hrc]
    cases hc : jlookup delta "content" with
    | none => simp [truthyO, jlookup_setKey_self, jlookup_removeKey_ne delta _ _ hrc, hc]
    | some c =>
        by_cases ht : truthy c = true
        · simp [truthyO, ht, jlookup_removeKey_ne delta _ _ hrc, hc]
        · simp [truthyO, ht, jlookup_setKey_self, hc]
  · exact jlookup_rewritten_rc _

/-! ## Claim C9 — inbound validation -/

/-- Claim C9: provided the API key is configured (the guard at line 109
otherwise answers 500 before validation runs), every request body whose
`model` is missing or not a string, or whose `messages` is missing or
not an array, is answered with HTTP 400 and error type
`invalid_request_error`.  The outcome is a `reject`, which by
construction carries no upstream request — the upstream call site is
reached only through `callUpstream`, so validation failures never cause
a network call. -/
theorem C9_validation_rejects (forceNoStream : Bool) (b : Json)
    (h : hasStrField b "model" = false ∨ hasArrField b "messages" = false) :
    ∃ msg, handleChatPre true forceNoStream (some b) =
      HandlerStep.reject 400 (errorEnvelope msg "invalid_request_error" 400) := by
  by_cases htr : truthy b = true
  · rcases h with h | h
    · cases hm : jfield b "model" with
      | none => exact ⟨"Missing or invalid \x27model\x27 in request body", by simp [handleChatPre, htr, hm]⟩
      | some v =>
          cases v with
          | str s => rw [hasStrField, hm] at h; simp at h
          | null => exact ⟨"Missing or invalid \x27model\x27 in request body", by simp [handleChatPre, htr, hm]⟩
          | bool x => exact ⟨"Missing or invalid \x27model\x27 in request body", by simp [handleChatPre, htr, hm]⟩
          | num x => exact ⟨"Missing or invalid \x27model\x27 in request body", by simp [handleChatPre, htr, hm]⟩
          | arr x => exact ⟨"Missing or invalid \x27model\x27 in request body", by simp [handleChatPre, htr, hm]⟩
          | obj x => exact ⟨"Missing or invalid \x27model\x27 in request body", by simp [handleChatPre, htr, hm]⟩
    · cases hm : jfield b "model" with
      | none => exact ⟨"Missing or invalid \x27model\x27 in request body", by simp [handleChatPre, htr, hm]⟩
      | some v =>
          cases v with
          | str s =>
              by_cases hs : s = ""
              · exact ⟨"Missing or invalid \x27model\x27 in request body", by simp [handleChatPre, htr, hm, hs]⟩
              · cases hmsg : jfield b "messages" with
                | none => exact ⟨"Missing or invalid \x27messages\x27 array in request body", by simp [handleChatPre, htr, hm, hs, hmsg]⟩
                | some w =>
                    cases w with
                    | arr xs => rw [hasArrField, hmsg] at h; simp at h
                    | null => exact ⟨"Missing or invalid \x27messages\x27 array in request body", by simp [handleChatPre, htr, hm, hs, hmsg]⟩
                    | bool y => exact ⟨"Missing or invalid \x27messages\x27 array in request body", by simp [handleChatPre, htr, hm, hs, hmsg]⟩
                    | num y => exact ⟨"Missing or invalid \x27messages\x27 array in request body", by simp [handleChatPre, htr, hm, hs, hmsg]⟩
                    | str y => exact ⟨"Missing or invalid \x27messages\x27 array in request body", by simp [handleChatPre, htr, hm, hs, hmsg]⟩
                    | obj y => exact ⟨"Missing or invalid \x27messages\x27 array in request body", by simp [handleChatPre, htr, hm, hs, hmsg]⟩
          | null => exact ⟨"Missing or invalid \x27model\x27 in request body", by simp [handleChatPre, htr, hm]⟩
          | bool x => exact ⟨"Missing or invalid \x27model\x27 in request body", by simp [handleChatPre, htr, hm]⟩
          | num x => exact ⟨"Missing or invalid \x27model\x27 in request body", by simp [handleChatPre, htr, hm]⟩
          | arr x => exact ⟨"Missing or invalid \x27model\x27 in request body", by simp [handleChatPre, htr, hm]⟩
          | obj x => exact ⟨"Missing or invalid \x27model\x27 in request body", by simp [handleChatPre, htr, hm]⟩
  · exact ⟨"Missing or invalid \x27model\x27 in request body", by simp [handleChatPre, htr, jfield, jlookup]⟩

/-- Witness for C9: a body carrying only `messages` (no `model`) is
rejected with 400 and `invalid_request_error`. -/
theorem C9_validation_rejects_witness :
    ∃ msg, handleChatPre true false (some (Json.obj [("messages", Json.arr [])])) =
      HandlerStep.reject 400 (errorEnvelope msg "invalid_request_error" 400) :=
  C9_validation_rejects false (Json.obj [("messages", Json.arr [])])
    (Or.inl (by decide))

/-! ## Claim C7 — model echo in the non-streaming envelope -/

/-- Claim C7: whenever the non-streaming translator produces an outbound
envelope, its `model` field is the caller's original request string,
whatever the upstream body contains and however the upstream identifier
was resolved. -/
theorem C7_model_echo (showReasoning : Bool) (model : String) (d : Json) (now : Nat)
    (r : OpenAIResponse) (h : responseTranslator showReasoning model d now = some r) :
    r.model = model := by
  unfold responseTranslator at h
  cases d
  case null => exact Option.noConfusion h
  all_goals
    repeat' first
      | split at h
      | dsimp only at h
  all_goals
    first
      | exact Option.noConfusion h
      | (injection h with h2; subst h2; rfl)

/-- Witness for C7: a concrete upstream body with a table-mapped
caller model `gpt-4` still echoes `gpt-4`. -/
theorem C7_model_echo_witness :
    ({ id := "chatcmpl-0", object := "chat.completion", created := 0, model := "gpt-4",
       choices := [],
       usage := Json.obj [("prompt_tokens", Json.num "0"),
         ("completion_tokens", Json.num "0"),
         ("total_tokens", Json.num "0")] } : OpenAIResponse).model = "gpt-4" :=
  C7_model_echo false "gpt-4" (Json.obj [("id", Json.str "x")]) 0 _ (by decide)

/-! ## Claim C10 — only the first choice is rewritten -/

/-- Claim C10: for a data frame whose `choices` array has a head and any
tail, the rewrite replaces only the head choice, and the tail — every
other choice, including any `reasoning_content` its delta carries — is
forwarded exactly as received; when the head choice's delta is an
object, the head is rewritten exactly by the delta rewrite. -/
theorem C10_other_choices_untouched (showReasoning st : Bool)
    (dk : List (String × Json)) (c0 : Json) (rest : List Json)
    (h : jlookup dk "choices" = some (Json.arr (c0 :: rest))) :
    ∃ c0out : Json,
      (rewriteData showReasoning st (Json.obj dk)).1 =
        Json.obj (setKey dk "choices" (Json.arr (c0out :: rest))) ∧
      (∀ ck df, c0 = Json.obj ck → jlookup ck "delta" = some (Json.obj df) →
        c0out = Json.obj (setKey ck "delta"
          (Json.obj (rewriteDelta showReasoning st df).1))) := by
  unfold rewriteData
  dsimp only
  rw [h]
  cases c0 with
  | obj ck =>
      cases hd : jlookup ck "delta" with
      | none =>
          refine ⟨Json.obj ck, ?_, ?_⟩
          · simp [getIndex0, hd, setKey_eq_self_of_jlookup dk _ _ h]
          · intro ck2 df hc hdd
            injection hc with hck
            subst hck
            rw [hd] at hdd
            exact Option.noConfusion hdd
      | some v =>
          cases v with
          | obj df0 =>
              refine ⟨Json.obj (setKey ck "delta"
                (Json.obj (rewriteDelta showReasoning st df0).1)), ?_, ?_⟩
              · simp [getIndex0, hd]
              · intro ck2 df hc hdd
                injection hc with hck
                subst hck
                rw [hd] at hdd
                injection hdd with hv
                injection hv with hdf
                subst hdf
                rfl
          | null =>
              refine ⟨Json.obj ck, ?_, ?_⟩
              · simp [getIndex0, hd, setKey_eq_self_of_jlookup dk _ _ h]
              · intro ck2 df hc hdd
                injection hc with hck
                subst hck
                rw [hd] at hdd
                injection hdd with hv
                exact Json.noConfusion hv
          | bool x =>
              refine ⟨Json.obj ck, ?_, ?_⟩
              · simp [getIndex0, hd, setKey_eq_self_of_jlookup dk _ _ h]
              · intro ck2 df hc hdd
                injection hc with hck
                subst hck
                rw [hd] at hdd
                injection hdd with hv
                exact Json.noConfusion hv
          | num x =>
              refine ⟨Json.obj ck, ?_, ?_⟩
              · simp [getIndex0, hd, setKey_eq_self_of_jlookup dk _ _ h]
              · intro ck2 df hc hdd
                injection hc with hck
                subst hck
                rw [hd] at hdd
                injection hdd with hv
                exact Json.noConfusion hv
          | str x =>
              refine ⟨Json.obj ck, ?_, ?_⟩
              · simp [getIndex0, hd, setKey_eq_self_of_jlookup dk _ _ h]
              · intro ck2 df hc hdd
                injection hc with hck
                subst hck
                rw [hd] at hdd
                injection hdd with hv
                exact Json.noConfusion hv
          | arr x =>
              refine ⟨Json.obj ck, ?_, ?_⟩
              · simp [getIndex0, hd, setKey_eq_self_of_jlookup dk _ _ h]
              · intro ck2 df hc hdd
                injection hc with hck
                subst hck
                rw [hd] at hdd
                injection hdd with hv
                exact Json.noConfusion hv
  | null =>
      refine ⟨Json.null, ?_, ?_⟩
      · simp [getIndex0, setKey_eq_self_of_jlookup dk _ _ h]
      · intro ck df hc hdd
        exact Json.noConfusion hc
  | bool x =>
      refine ⟨Json.bool x, ?_, ?_⟩
      · simp [getIndex0, setKey_eq_self_of_jlookup dk _ _ h]
      · intro ck df hc hdd
        exact Json.noConfusion hc
  | num x =>
      refine ⟨Json.num x, ?_, ?_⟩
      · simp [getIndex0, setKey_eq_self_of_jlookup dk _ _ h]
      · intro ck df hc hdd
        exact Json.noConfusion hc
  | str x =>
      refine ⟨Json.str x, ?_, ?_⟩
      · simp [getIndex0, setKey_eq_self_of_jlookup dk _ _ h]
      · intro ck df hc hdd
        exact Json.noConfusion hc
  | arr x =>
      refine ⟨Json.arr x, ?_, ?_⟩
      · simp [getIndex0, setKey_eq_self_of_jlookup dk _ _ h]
      · intro ck df hc hdd
        exact Json.noConfusion hc

/-- Witness for C10: a concrete two-choice frame keeps the second
choice, `reasoning_content` included, exactly as received. -/
theorem C10_other_choices_untouched_witness :
    ∃ c0out : Json,
      (rewriteData false false (Json.obj c10Fields)).1 =
        Json.obj (setKey c10Fields "choices" (Json.arr (c0out :: [c10Choice1]))) ∧
      (∀ ck df, c10Choice0 = Json.obj ck → jlookup ck "delta" = some (Json.obj df) →
        c0out = Json.obj (setKey ck "delta"
          (Json.obj (rewriteDelta false false df).1))) :=
  C10_other_choices_untouched false false c10Fields c10Choice0 [c10Choice1] (by decide)

end NimProxy
